import Mathlib

/-!
Shallow embedding of the pngme chunk codec (src/chunk.rs, src/chunk_type.rs).

Bytes are modelled as natural numbers; wherever the Rust code relies on the
`u8` type, a `% 256` makes the truncation explicit.  Machine `u32` values are
naturals with explicit `% 2^32` at the points where the code converts.
Fallible Rust functions returning `Result` become `Except`; the slice
primitive `split_at`, which aborts when the index exceeds the slice length,
is modelled by a dedicated outcome constructor `panicked`.
-/

namespace Pngme

/-- Model of `u8::is_ascii_alphabetic` on a byte value. -/
def isAsciiAlphabetic (b : Nat) : Bool :=
  (decide (65 ≤ b) && decide (b ≤ 90)) || (decide (97 ≤ b) && decide (b ≤ 122))

/-- Model of `u8::is_ascii_uppercase` on a byte value. -/
def isAsciiUppercase (b : Nat) : Bool :=
  decide (65 ≤ b) && decide (b ≤ 90)

/-- Model of `u8::is_ascii_lowercase` on a byte value. -/
def isAsciiLowercase (b : Nat) : Bool :=
  decide (97 ≤ b) && decide (b ≤ 122)

/-- Model of `u32::from_be_bytes` on four byte values (each taken mod 256, as `u8`). -/
def u32FromBe (a b c d : Nat) : Nat :=
  (a % 256) * 16777216 + (b % 256) * 65536 + (c % 256) * 256 + (d % 256)

/-- Model of `u32::to_be_bytes` after an `as u32` conversion: the four
big-endian byte digits of `n % 2^32`. -/
def u32beList (n : Nat) : List Nat :=
  [n / 16777216 % 256, n / 65536 % 256, n / 256 % 256, n % 256]

/-- One bit step of CRC-32 (reflected polynomial 0xEDB88320), as computed by
`crc::Crc::<u32>::new(&crc::CRC_32_ISO_HDLC)`. -/
def crcStep (c : Nat) : Nat :=
  if c % 2 = 1 then (c / 2) ^^^ 0xEDB88320 else c / 2

/-- One byte step of CRC-32: xor the byte into the state, then eight bit
steps. -/
def crcByteStep (c b : Nat) : Nat :=
  crcStep (crcStep (crcStep (crcStep (crcStep (crcStep (crcStep (crcStep
    (c ^^^ (b % 256)))))))))

/-- Fold the byte step over a byte list. -/
def crc32Aux : Nat → List Nat → Nat
  | c, [] => c
  | c, b :: bs => crc32Aux (crcByteStep c b) bs

/-- CRC-32 ISO-HDLC checksum of a byte list: initial state `0xFFFFFFFF`,
final complement. -/
def crc32 (data : List Nat) : Nat :=
  crc32Aux 0xFFFFFFFF data ^^^ 0xFFFFFFFF

/-- The error kinds of `chunk_type.rs` (`ChunkTypeError`). -/
inductive ChunkTypeError where
  | invalidByteArray
  | invalidString
deriving DecidableEq, Repr

/-- The struct `ChunkType([u8; 4])`: the four bytes of a chunk type code. -/
structure ChunkType where
  b0 : Nat
  b1 : Nat
  b2 : Nat
  b3 : Nat
deriving DecidableEq, Repr

/-- Accessor `ChunkType::bytes`. -/
def ChunkType.bytes (t : ChunkType) : List Nat :=
  [t.b0, t.b1, t.b2, t.b3]

/-- Model of `TryFrom<[u8; 4]> for ChunkType`: reject the array when any
byte is not ASCII alphabetic. -/
def ChunkType.tryFrom (b0 b1 b2 b3 : Nat) : Except ChunkTypeError ChunkType :=
  if !isAsciiAlphabetic b0 || !isAsciiAlphabetic b1 ||
     !isAsciiAlphabetic b2 || !isAsciiAlphabetic b3 then
    Except.error ChunkTypeError.invalidByteArray
  else
    Except.ok ⟨b0, b1, b2, b3⟩

/-- Model of `FromStr for ChunkType`: a string is its UTF-8 byte list;
reject unless its byte length is 4, then delegate to the byte-array
conversion. -/
def ChunkType.fromStr (s : List Nat) : Except ChunkTypeError ChunkType :=
  match s with
  | [a, b, c, d] => ChunkType.tryFrom a b c d
  | _ => Except.error ChunkTypeError.invalidString

/-- Predicate `ChunkType::is_reserved_bit_valid`: byte index 2 is ASCII
uppercase. -/
def ChunkType.is_reserved_bit_valid (t : ChunkType) : Bool :=
  isAsciiUppercase t.b2

/-- Predicate `ChunkType::is_valid`: all four bytes ASCII alphabetic and
the reserved bit valid. -/
def ChunkType.is_valid (t : ChunkType) : Bool :=
  (isAsciiAlphabetic t.b0 && isAsciiAlphabetic t.b1 &&
   isAsciiAlphabetic t.b2 && isAsciiAlphabetic t.b3) && t.is_reserved_bit_valid

/-- The struct `Chunk { chunk_type, data }`. -/
structure Chunk where
  chunk_type : ChunkType
  data : List Nat
deriving DecidableEq, Repr

/-- Constructor `Chunk::new`: plain construction, no validity check. -/
def Chunk.new (t : ChunkType) (d : List Nat) : Chunk :=
  ⟨t, d⟩

/-- Accessor `Chunk::length`. -/
def Chunk.length (c : Chunk) : Nat :=
  c.data.length

/-- Model of `Chunk::crc`: CRC-32 over the type bytes followed by the
payload. -/
def Chunk.crc (c : Chunk) : Nat :=
  crc32 (c.chunk_type.bytes ++ c.data)

/-- Model of `Chunk::as_bytes`: length (as `u32`, big-endian), type bytes,
payload, freshly computed CRC (big-endian). -/
def Chunk.as_bytes (c : Chunk) : List Nat :=
  u32beList c.data.length ++ c.chunk_type.bytes ++ c.data ++ u32beList c.crc

/-- The error kinds of `chunk.rs` (`ChunkError`), plus the propagated
`ChunkTypeError` coming out of the `?` on `ChunkType::try_from`.  The
`invalidChunkType` variant carries the textual form of the type code, i.e.
its four (alphabetic, hence ASCII) bytes. -/
inductive ChunkError where
  | inputTooSmall (required available : Nat)
  | invalidCrc (expected found : Nat)
  | invalidChunkType (typeText : List Nat)
  | typeError (e : ChunkTypeError)
deriving DecidableEq, Repr

/-- Result of `Chunk::try_from(&[u8])`: success, an error value, or an abort
coming from `split_at` being called with an index past the end. -/
inductive ParseOutcome where
  | ok (c : Chunk)
  | err (e : ChunkError)
  | panicked
deriving DecidableEq, Repr

/-- Model of `TryFrom<&[u8]> for Chunk`.  Mirrors src/chunk.rs lines 13 to 51:
split off 4 length bytes (aborting when fewer than 4 bytes exist, as
`split_at` does), check `length + 8` more bytes exist, split off and
convert the type code, reject invalid type codes, split off the payload and
the declared CRC, and compare the declared CRC with the computed one. -/
def chunkTryFrom (input : List Nat) : ParseOutcome :=
  match input with
  | l0 :: l1 :: l2 :: l3 :: rest =>
    let len := u32FromBe l0 l1 l2 l3
    if len + 8 > rest.length then
      ParseOutcome.err (ChunkError.inputTooSmall len rest.length)
    else
      match rest with
      | t0 :: t1 :: t2 :: t3 :: rest2 =>
        match ChunkType.tryFrom t0 t1 t2 t3 with
        | Except.error e => ParseOutcome.err (ChunkError.typeError e)
        | Except.ok ct =>
          if !ct.is_valid then
            ParseOutcome.err (ChunkError.invalidChunkType ct.bytes)
          else
            match rest2.drop len with
            | c0 :: c1 :: c2 :: c3 :: _ =>
              let chunk := Chunk.new ct (rest2.take len)
              let checksum := u32FromBe c0 c1 c2 c3
              if checksum ≠ chunk.crc then
                ParseOutcome.err (ChunkError.invalidCrc chunk.crc checksum)
              else
                ParseOutcome.ok chunk
            | _ => ParseOutcome.panicked
      | _ => ParseOutcome.panicked
  | _ => ParseOutcome.panicked

/-- Whether a byte is a UTF-8 continuation byte (0x80 to 0xBF). -/
def isUtf8Cont (b : Nat) : Bool :=
  decide (128 ≤ b) && decide (b ≤ 191)

/-- UTF-8 validity of a byte list, as checked by `std::str::from_utf8`:
well-formed sequence lengths, no overlong encodings, no surrogates, no code
points above U+10FFFF. -/
def utf8Valid : List Nat → Bool
  | [] => true
  | b :: rest =>
    if b ≤ 127 then
      utf8Valid rest
    else if 194 ≤ b && b ≤ 223 then
      match rest with
      | c1 :: rest2 => isUtf8Cont c1 && utf8Valid rest2
      | [] => false
    else if 224 ≤ b && b ≤ 239 then
      match rest with
      | c1 :: c2 :: rest2 =>
        (if b = 224 then decide (160 ≤ c1) && decide (c1 ≤ 191)
         else if b = 237 then decide (128 ≤ c1) && decide (c1 ≤ 159)
         else isUtf8Cont c1) && isUtf8Cont c2 && utf8Valid rest2
      | _ => false
    else if 240 ≤ b && b ≤ 244 then
      match rest with
      | c1 :: c2 :: c3 :: rest2 =>
        (if b = 240 then decide (144 ≤ c1) && decide (c1 ≤ 191)
         else if b = 244 then decide (128 ≤ c1) && decide (c1 ≤ 143)
         else isUtf8Cont c1) && isUtf8Cont c2 && isUtf8Cont c3 &&
          utf8Valid rest2
      | _ => false
    else
      false

/-- Model of `Chunk::data_as_string`: the payload reinterpreted as UTF-8
text (the text is modelled by its byte list), or a decoding error. -/
def Chunk.data_as_string (c : Chunk) : Except Unit (List Nat) :=
  if utf8Valid c.data then Except.ok c.data else Except.error ()

/-- The serialized image of a chunk with an arbitrary declared CRC in the
checksum field; `Chunk.as_bytes` is this at the freshly computed CRC. -/
def serializeWithCrc (c : Chunk) (declared : Nat) : List Nat :=
  u32beList c.data.length ++ c.chunk_type.bytes ++ c.data ++ u32beList declared

/-- The type code "RuSt" (valid: byte 2 is uppercase). -/
def rustType : ChunkType := ⟨82, 117, 83, 116⟩

/-- The type code "Rust" (constructible but not valid: byte 2 lowercase). -/
def lowerRustType : ChunkType := ⟨82, 117, 115, 116⟩

/-- The 42 ASCII bytes of "This is where your secret message will be!". -/
def secretMessage : List Nat :=
  [84, 104, 105, 115, 32, 105, 115, 32, 119, 104, 101, 114, 101, 32, 121,
   111, 117, 114, 32, 115, 101, 99, 114, 101, 116, 32, 109, 101, 115, 115,
   97, 103, 101, 32, 119, 105, 108, 108, 32, 98, 101, 33]

/-- The fixed test vector: big-endian length 42, type "RuSt", the secret
message, big-endian CRC 2882656334. -/
def testVectorBytes : List Nat :=
  u32beList 42 ++ rustType.bytes ++ secretMessage ++ u32beList 2882656334

/-- The same vector with CRC 2882656333 in place of 2882656334. -/
def testVectorBadCrc : List Nat :=
  u32beList 42 ++ rustType.bytes ++ secretMessage ++ u32beList 2882656333

/-- A payload of 2^32 zero bytes, at which the `as u32` conversion in
`Chunk::as_bytes` truncates the length field to 0. -/
def bigPayload : List Nat := List.replicate 4294967296 0

/-! ### Helper lemmas -/

theorem xor_lt_u32 {a b : Nat} (ha : a < 4294967296) (hb : b < 4294967296) :
    a ^^^ b < 4294967296 := by
  have h : a ^^^ b < 2 ^ 32 := Nat.xor_lt_two_pow (by omega) (by omega)
  omega

theorem crcStep_lt {c : Nat} (h : c < 4294967296) : crcStep c < 4294967296 := by
  unfold crcStep
  split
  · exact xor_lt_u32 (by omega) (by omega)
  · omega

theorem crcByteStep_lt {c : Nat} (b : Nat) (h : c < 4294967296) :
    crcByteStep c b < 4294967296 :=
  crcStep_lt (crcStep_lt (crcStep_lt (crcStep_lt (crcStep_lt (crcStep_lt
    (crcStep_lt (crcStep_lt (xor_lt_u32 h (by omega)))))))))

theorem crc32Aux_lt (l : List Nat) {c : Nat} (h : c < 4294967296) :
    crc32Aux c l < 4294967296 := by
  induction l generalizing c with
  | nil => exact h
  | cons b bs ih => exact ih (crcByteStep_lt b h)

theorem crc32_lt (l : List Nat) : crc32 l < 4294967296 :=
  xor_lt_u32 (crc32Aux_lt l (by omega)) (by omega)

theorem u32FromBe_digits (n : Nat) :
    u32FromBe (n / 16777216 % 256) (n / 65536 % 256) (n / 256 % 256) (n % 256) =
      n % 4294967296 := by
  simp only [u32FromBe]
  omega

theorem u32beList_length (n : Nat) : (u32beList n).length = 4 := rfl

theorem exists_cons4 (l : List Nat) (h : 4 ≤ l.length) :
    ∃ a b c d t, l = a :: b :: c :: d :: t := by
  rcases l with _ | ⟨a, _ | ⟨b, _ | ⟨c, _ | ⟨d, t⟩⟩⟩⟩
  · simp at h
  · simp at h
  · simp at h
  · simp at h
  · exact ⟨a, b, c, d, t, rfl⟩

/-- Parsing the serialized layout with an arbitrary declared CRC in the
checksum field and arbitrary trailing bytes: the length, type code and
payload are recovered, and the declared CRC decides between success and a
CRC mismatch error. -/
theorem chunkTryFrom_layout (t : ChunkType) (p s : List Nat) (declared : Nat)
    (ht : t.is_valid = true) (hp : p.length < 4294967296)
    (hd : declared < 4294967296) :
    chunkTryFrom (u32beList p.length ++ t.bytes ++ p ++ u32beList declared ++ s) =
      if declared = crc32 (t.bytes ++ p) then
        ParseOutcome.ok (Chunk.new t p)
      else
        ParseOutcome.err (ChunkError.invalidCrc (crc32 (t.bytes ++ p)) declared) := by
  obtain ⟨b0, b1, b2, b3⟩ := t
  have hvalid := ht
  simp only [ChunkType.is_valid, ChunkType.is_reserved_bit_valid,
    Bool.and_eq_true] at hvalid
  obtain ⟨⟨⟨⟨ha0, ha1⟩, ha2⟩, ha3⟩, hres⟩ := hvalid
  have htf : ChunkType.tryFrom b0 b1 b2 b3 = Except.ok ⟨b0, b1, b2, b3⟩ := by
    simp [ChunkType.tryFrom, ha0, ha1, ha2, ha3]
  simp only [ChunkType.bytes, u32beList, List.cons_append, List.nil_append,
    List.append_assoc]
  rw [chunkTryFrom]
  rw [u32FromBe_digits, Nat.mod_eq_of_lt hp]
  split
  · next hcond =>
    exfalso
    simp only [List.length_cons, List.length_append] at hcond
    omega
  · next hcond =>
    rw [htf]
    simp only [ht, Bool.not_true, Bool.false_eq_true, if_false]
    rw [List.drop_left, List.take_left]
    simp only [u32FromBe_digits, Nat.mod_eq_of_lt hd, Chunk.crc, Chunk.new,
      ChunkType.bytes, List.cons_append, List.nil_append]
    by_cases hcrc : declared = crc32 (b0 :: b1 :: b2 :: b3 :: p)
    · subst hcrc
      simp
    · rw [if_pos hcrc, if_neg hcrc]

/-- Parsing an input whose length field is all zeroes: the payload is empty,
the four bytes after the type code are read as the declared CRC, and the
rest of the input is ignored. -/
theorem chunkTryFrom_zero_length (t0 t1 t2 t3 x0 x1 x2 x3 : Nat)
    (junk : List Nat)
    (htf : ChunkType.tryFrom t0 t1 t2 t3 = Except.ok ⟨t0, t1, t2, t3⟩)
    (hv : ChunkType.is_valid ⟨t0, t1, t2, t3⟩ = true) :
    chunkTryFrom
        (0 :: 0 :: 0 :: 0 :: t0 :: t1 :: t2 :: t3 ::
          x0 :: x1 :: x2 :: x3 :: junk) =
      if u32FromBe x0 x1 x2 x3 ≠ crc32 [t0, t1, t2, t3] then
        ParseOutcome.err (ChunkError.invalidCrc (crc32 [t0, t1, t2, t3])
          (u32FromBe x0 x1 x2 x3))
      else ParseOutcome.ok (Chunk.new ⟨t0, t1, t2, t3⟩ []) := by
  rw [chunkTryFrom]
  rw [show u32FromBe 0 0 0 0 = 0 from rfl]
  split
  · next hcond =>
    exfalso
    simp only [List.length_cons] at hcond
    omega
  · next hcond =>
    rw [htf]
    simp only [hv, Bool.not_true, Bool.false_eq_true, if_false]
    rw [List.drop_zero, List.take_zero]
    simp only [Chunk.crc, Chunk.new, ChunkType.bytes, List.append_nil]

/-! ### Claim theorems -/

/-- C1 (amended): for every type code T with `is_valid()` true and every
byte payload P of fewer than 2^32 bytes, parsing the serialized bytes of
`Chunk::new(T, P)` succeeds and returns a chunk equal to `Chunk::new(T, P)`
(same type code and same payload). -/
theorem c1_parse_of_serialize (t : ChunkType) (p : List Nat)
    (ht : t.is_valid = true) (hp : p.length < 4294967296) :
    chunkTryFrom ((Chunk.new t p).as_bytes) = ParseOutcome.ok (Chunk.new t p) := by
  have h := chunkTryFrom_layout t p [] (crc32 (t.bytes ++ p)) ht hp (crc32_lt _)
  rw [if_pos rfl] at h
  simpa [Chunk.as_bytes, Chunk.new, Chunk.crc, ChunkType.bytes] using h

/-- C1 witness: the amended statement applied at type "RuSt" and payload
[1, 2, 3]. -/
theorem c1_witness :
    rustType.is_valid = true ∧ ([1, 2, 3] : List Nat).length < 4294967296 ∧
      chunkTryFrom ((Chunk.new rustType [1, 2, 3]).as_bytes) =
        ParseOutcome.ok (Chunk.new rustType [1, 2, 3]) :=
  ⟨by decide, by decide,
    c1_parse_of_serialize rustType [1, 2, 3] (by decide) (by decide)⟩

/-- C1 counterexample: at a payload of 2^32 zero bytes the `as u32`
conversion truncates the length field to 0, the parsed checksum bytes are
payload bytes, and parsing does not return the original chunk. -/
theorem c1_counterexample :
    chunkTryFrom ((Chunk.new rustType bigPayload).as_bytes) ≠
      ParseOutcome.ok (Chunk.new rustType bigPayload) := by
  have hlen : bigPayload.length = 4294967296 := by
    rw [bigPayload, List.length_replicate]
  have hrep : bigPayload = 0 :: 0 :: 0 :: 0 :: List.replicate 4294967292 0 := by
    rw [bigPayload, show (4294967296 : Nat) = 4 + 4294967292 from rfl,
      List.replicate_add]
    rfl
  have hbytes : (Chunk.new rustType bigPayload).as_bytes
      = 0 :: 0 :: 0 :: 0 :: (82 :: 117 :: 83 :: 116 ::
        (bigPayload ++ u32beList ((Chunk.new rustType bigPayload).crc))) := by
    simp only [Chunk.as_bytes, Chunk.new, hlen]
    rfl
  have hparse := chunkTryFrom_zero_length 82 117 83 116 0 0 0 0
    (List.replicate 4294967292 0 ++
      u32beList ((Chunk.new rustType bigPayload).crc))
    (by rfl) (by decide)
  rw [if_pos (show u32FromBe 0 0 0 0 ≠ crc32 [82, 117, 83, 116] from by decide)]
    at hparse
  rw [hbytes]
  rw [show (bigPayload ++ u32beList ((Chunk.new rustType bigPayload).crc))
      = 0 :: 0 :: 0 :: 0 ::
        (List.replicate 4294967292 0 ++
          u32beList ((Chunk.new rustType bigPayload).crc)) from by
    rw [hrep]
    rfl]
  rw [hparse]
  intro hcontra
  exact ParseOutcome.noConfusion hcontra

/-- C2 (amended): for every chunk whose type code is valid and whose payload
has fewer than 2^32 bytes, replacing the CRC field of its serialized form
by any u32 different from the computed CRC makes parsing fail with the CRC
mismatch error carrying expected = the freshly computed CRC and found = the
declared CRC. -/
theorem c2_crc_mismatch (t : ChunkType) (p : List Nat) (found : Nat)
    (ht : t.is_valid = true) (hp : p.length < 4294967296)
    (hf : found < 4294967296) (hne : found ≠ (Chunk.new t p).crc) :
    chunkTryFrom (serializeWithCrc (Chunk.new t p) found) =
      ParseOutcome.err (ChunkError.invalidCrc ((Chunk.new t p).crc) found) := by
  have h := chunkTryFrom_layout t p [] found ht hp hf
  have hne2 : found ≠ crc32 (t.bytes ++ p) := hne
  rw [if_neg hne2] at h
  simpa [serializeWithCrc, Chunk.new, Chunk.crc, ChunkType.bytes] using h

/-- C2 witness: the amended statement applied at type "RuSt", the empty
payload and declared CRC 0. -/
theorem c2_witness :
    rustType.is_valid = true ∧ (0 : Nat) ≠ (Chunk.new rustType []).crc ∧
      chunkTryFrom (serializeWithCrc (Chunk.new rustType []) 0) =
        ParseOutcome.err (ChunkError.invalidCrc ((Chunk.new rustType []).crc) 0) :=
  ⟨by decide, by decide,
    c2_crc_mismatch rustType [] 0 (by decide) (by decide) (by decide) (by decide)⟩

/-- C2 counterexample: a chunk built from the constructible but invalid type
"Rust" serializes, yet parsing its CRC-mutated serialization fails with the
invalid-chunk-type error rather than the CRC mismatch error, although the
declared CRC 0 differs from the computed one. -/
theorem c2_counterexample :
    (0 : Nat) ≠ (Chunk.new lowerRustType []).crc ∧
      chunkTryFrom (serializeWithCrc (Chunk.new lowerRustType []) 0) ≠
        ParseOutcome.err
          (ChunkError.invalidCrc ((Chunk.new lowerRustType []).crc) 0) ∧
      chunkTryFrom (serializeWithCrc (Chunk.new lowerRustType []) 0) =
        ParseOutcome.err (ChunkError.invalidChunkType [82, 117, 115, 116]) := by
  refine ⟨by decide, by decide, by decide⟩

set_option maxRecDepth 100000 in
/-- C3: parsing the fixed test vector (big-endian length 42, type "RuSt",
the 42-byte secret message, big-endian CRC 2882656334) succeeds with that
exact payload, the payload decodes as text to that exact string, and the
same bytes with CRC 2882656333 fail with the CRC mismatch error. -/
theorem c3_test_vector :
    chunkTryFrom testVectorBytes =
        ParseOutcome.ok (Chunk.new rustType secretMessage) ∧
      (Chunk.new rustType secretMessage).data_as_string =
        Except.ok secretMessage ∧
      chunkTryFrom testVectorBadCrc =
        ParseOutcome.err (ChunkError.invalidCrc 2882656334 2882656333) := by
  refine ⟨by decide, by rfl, by decide⟩

/-- C4: for every input of at least 4 bytes whose first 4 bytes decode
big-endian to a declared length, if the remaining input holds fewer than
declared length + 8 bytes then parsing fails with the input-too-small error
carrying the declared length and the number of available bytes. -/
theorem c4_truncated_input (l0 l1 l2 l3 : Nat) (rest : List Nat)
    (hb0 : l0 < 256) (hb1 : l1 < 256) (hb2 : l2 < 256) (hb3 : l3 < 256)
    (hshort : rest.length < l0 * 16777216 + l1 * 65536 + l2 * 256 + l3 + 8) :
    chunkTryFrom (l0 :: l1 :: l2 :: l3 :: rest) =
      ParseOutcome.err (ChunkError.inputTooSmall
        (l0 * 16777216 + l1 * 65536 + l2 * 256 + l3) rest.length) := by
  have hdec : u32FromBe l0 l1 l2 l3
      = l0 * 16777216 + l1 * 65536 + l2 * 256 + l3 := by
    simp only [u32FromBe]
    omega
  simp only [chunkTryFrom.eq_def, hdec]
  rw [if_pos hshort]

/-- C4 witness: the statement applied to the 4-byte input with declared
length 5 and no further bytes. -/
theorem c4_witness :
    chunkTryFrom [0, 0, 0, 5] =
      ParseOutcome.err (ChunkError.inputTooSmall 5 0) := by
  have h := c4_truncated_input 0 0 0 5 [] (by decide) (by decide) (by decide)
    (by decide) (by decide)
  simpa using h

/-- C5 (amended): once the declared-length check passes, parsing an input
whose type field is constructible (all four bytes ASCII alphabetic) but not
valid (byte index 2 lowercase) fails with the invalid-chunk-type error
carrying the type text; and `Chunk::new` accepts any constructible type
code without checking validity, storing it and the payload unchanged. -/
theorem c5_invalid_type :
    (∀ (l0 l1 l2 l3 t0 t1 t2 t3 : Nat) (rest2 : List Nat),
      isAsciiAlphabetic t0 = true → isAsciiAlphabetic t1 = true →
      isAsciiAlphabetic t2 = true → isAsciiAlphabetic t3 = true →
      isAsciiLowercase t2 = true →
      u32FromBe l0 l1 l2 l3 + 8 ≤ rest2.length + 4 →
      chunkTryFrom (l0 :: l1 :: l2 :: l3 :: t0 :: t1 :: t2 :: t3 :: rest2) =
        ParseOutcome.err (ChunkError.invalidChunkType [t0, t1, t2, t3])) ∧
    (∀ (t : ChunkType) (p : List Nat),
      (Chunk.new t p).chunk_type = t ∧ (Chunk.new t p).data = p) := by
  constructor
  · intro l0 l1 l2 l3 t0 t1 t2 t3 rest2 ha0 ha1 ha2 ha3 hlow hfit
    have htf : ChunkType.tryFrom t0 t1 t2 t3 = Except.ok ⟨t0, t1, t2, t3⟩ := by
      simp [ChunkType.tryFrom, ha0, ha1, ha2, ha3]
    have hup : isAsciiUppercase t2 = false := by
      simp only [isAsciiLowercase, Bool.and_eq_true, decide_eq_true_eq] at hlow
      have h90 : ¬(t2 ≤ 90) := by omega
      simp [isAsciiUppercase, h90]
    have hnv : ChunkType.is_valid ⟨t0, t1, t2, t3⟩ = false := by
      simp [ChunkType.is_valid, ChunkType.is_reserved_bit_valid, hup]
    rw [chunkTryFrom]
    split
    · next hcond =>
      exfalso
      simp only [List.length_cons] at hcond
      omega
    · next hcond =>
      rw [htf]
      simp [hnv, ChunkType.bytes]
  · intro t p
    exact ⟨rfl, rfl⟩

/-- C5 witness: the parse part applied at declared length 0 and type "Rust",
and the construction part applied at type "Rust" with payload [7]. -/
theorem c5_witness :
    chunkTryFrom [0, 0, 0, 0, 82, 117, 115, 116, 0, 0, 0, 0] =
        ParseOutcome.err (ChunkError.invalidChunkType [82, 117, 115, 116]) ∧
      (Chunk.new lowerRustType [7]).chunk_type = lowerRustType := by
  refine ⟨?_, (c5_invalid_type.2 lowerRustType [7]).1⟩
  have h := c5_invalid_type.1 0 0 0 0 82 117 115 116 [0, 0, 0, 0]
    (by decide) (by decide) (by decide) (by decide) (by decide) (by decide)
  simpa using h

/-- C5 counterexample: a truncated input whose type-code field holds the
constructible but invalid type "Rust" fails with the input-too-small error,
not the invalid-chunk-type error, because the length check runs first. -/
theorem c5_counterexample :
    chunkTryFrom [0, 0, 9, 9, 82, 117, 115, 116] ≠
        ParseOutcome.err (ChunkError.invalidChunkType [82, 117, 115, 116]) ∧
      chunkTryFrom [0, 0, 9, 9, 82, 117, 115, 116] =
        ParseOutcome.err (ChunkError.inputTooSmall 2313 4) := by
  refine ⟨by decide, by decide⟩

/-- C6 (amended): for every chunk with a valid type code and a payload of
fewer than 2^32 bytes, and every trailing byte sequence, parsing the
serialized bytes followed by the trailing bytes succeeds and returns the
chunk; the trailing bytes do not affect the result. -/
theorem c6_trailing_bytes (t : ChunkType) (p s : List Nat)
    (ht : t.is_valid = true) (hp : p.length < 4294967296) :
    chunkTryFrom ((Chunk.new t p).as_bytes ++ s) =
      ParseOutcome.ok (Chunk.new t p) := by
  have h := chunkTryFrom_layout t p s (crc32 (t.bytes ++ p)) ht hp (crc32_lt _)
  rw [if_pos rfl] at h
  simpa [Chunk.as_bytes, Chunk.new, Chunk.crc, ChunkType.bytes,
    List.append_assoc] using h

/-- C6 witness: the amended statement applied at type "RuSt", payload [5]
and trailing bytes [9, 9, 9]. -/
theorem c6_witness :
    rustType.is_valid = true ∧
      chunkTryFrom ((Chunk.new rustType [5]).as_bytes ++ [9, 9, 9]) =
        ParseOutcome.ok (Chunk.new rustType [5]) :=
  ⟨by decide, c6_trailing_bytes rustType [5] [9, 9, 9] (by decide) (by decide)⟩

set_option maxRecDepth 100000 in
/-- C6 counterexample: a chunk built from the constructible but invalid
type "Rust" is a chunk in the sense of the claim, yet parsing its
serialization followed by trailing bytes does not return it. -/
theorem c6_counterexample :
    chunkTryFrom ((Chunk.new lowerRustType []).as_bytes ++ [18, 52, 86, 120]) ≠
      ParseOutcome.ok (Chunk.new lowerRustType []) := by
  decide

/-- C7: byte-array construction of a type code succeeds exactly when all
four bytes are ASCII alphabetic and otherwise fails with the invalid-bytes
error; string construction fails with the invalid-string error whenever the
byte length is not 4, and on 4-byte strings agrees with byte-array
construction. -/
theorem c7_type_code_construction :
    (∀ b0 b1 b2 b3 : Nat,
      (ChunkType.tryFrom b0 b1 b2 b3 = Except.ok ⟨b0, b1, b2, b3⟩ ↔
        (isAsciiAlphabetic b0 && isAsciiAlphabetic b1 &&
         isAsciiAlphabetic b2 && isAsciiAlphabetic b3) = true) ∧
      ((isAsciiAlphabetic b0 && isAsciiAlphabetic b1 &&
        isAsciiAlphabetic b2 && isAsciiAlphabetic b3) = false →
        ChunkType.tryFrom b0 b1 b2 b3 =
          Except.error ChunkTypeError.invalidByteArray)) ∧
    (∀ s : List Nat, s.length ≠ 4 →
      ChunkType.fromStr s = Except.error ChunkTypeError.invalidString) ∧
    (∀ a b c d : Nat, ChunkType.fromStr [a, b, c, d] = ChunkType.tryFrom a b c d) := by
  refine ⟨fun b0 b1 b2 b3 => ?_, fun s hs => ?_, fun a b c d => rfl⟩
  · cases hb0 : isAsciiAlphabetic b0 <;> cases hb1 : isAsciiAlphabetic b1 <;>
      cases hb2 : isAsciiAlphabetic b2 <;> cases hb3 : isAsciiAlphabetic b3 <;>
      simp [ChunkType.tryFrom, hb0, hb1, hb2, hb3]
  · rcases s with _ | ⟨a, _ | ⟨b, _ | ⟨c, _ | ⟨d, _ | ⟨e, tail⟩⟩⟩⟩⟩
    · rfl
    · rfl
    · rfl
    · rfl
    · exact absurd rfl hs
    · rfl

/-- C7 witness: the statement applied at "RuSt", at a digit-containing
4-byte array, at a 2-byte string and at the 4-byte string "RuSt". -/
theorem c7_witness :
    ChunkType.tryFrom 82 117 83 116 = Except.ok rustType ∧
      ChunkType.tryFrom 82 117 49 116 =
        Except.error ChunkTypeError.invalidByteArray ∧
      ChunkType.fromStr [82, 117] = Except.error ChunkTypeError.invalidString ∧
      ChunkType.fromStr [82, 117, 83, 116] = ChunkType.tryFrom 82 117 83 116 :=
  ⟨(c7_type_code_construction.1 82 117 83 116).1.mpr (by decide),
    (c7_type_code_construction.1 82 117 49 116).2 (by decide),
    c7_type_code_construction.2.1 [82, 117] (by decide),
    c7_type_code_construction.2.2 82 117 83 116⟩

/-- C8: a type code is valid exactly when all four bytes are ASCII
alphabetic and byte index 2 is ASCII uppercase; the type "RuSt" is valid
and the type "Rust" is not. -/
theorem c8_is_valid :
    (∀ t : ChunkType, t.is_valid = true ↔
      ((isAsciiAlphabetic t.b0 && isAsciiAlphabetic t.b1 &&
        isAsciiAlphabetic t.b2 && isAsciiAlphabetic t.b3) = true ∧
        isAsciiUppercase t.b2 = true)) ∧
    rustType.is_valid = true ∧ lowerRustType.is_valid = false := by
  refine ⟨fun t => ?_, by decide, by decide⟩
  simp [ChunkType.is_valid, ChunkType.is_reserved_bit_valid, Bool.and_eq_true]

/-- C8 witness: the characterization applied at the type "RuSt". -/
theorem c8_witness : rustType.is_valid = true :=
  (c8_is_valid.1 rustType).mpr ⟨by decide, by decide⟩

/-- C9: the serialized form of every chunk is exactly the 4-byte big-endian
length field, the 4 type bytes, the payload, and the 4-byte big-endian
CRC-32 of the type bytes followed by the payload, in that order; its total
size is the payload length plus 12, hence at least 12. -/
theorem c9_serialized_layout :
    (∀ c : Chunk, c.as_bytes =
      u32beList c.data.length ++ c.chunk_type.bytes ++ c.data ++
        u32beList (crc32 (c.chunk_type.bytes ++ c.data))) ∧
    (∀ c : Chunk, c.as_bytes.length = c.data.length + 12) ∧
    (∀ c : Chunk, 12 ≤ c.as_bytes.length) := by
  have hlen : ∀ c : Chunk, c.as_bytes.length = c.data.length + 12 := by
    intro c
    simp only [Chunk.as_bytes, u32beList, ChunkType.bytes, List.length_append,
      List.length_cons, List.length_nil]
    omega
  exact ⟨fun c => rfl, hlen, fun c => by rw [hlen c]; omega⟩

/-- C10 (amended): for every input of at least 4 bytes, chunk parsing
returns a chunk or an error value and never reaches an aborting call of
`split_at`; inputs of fewer than 4 bytes abort instead of returning. -/
theorem c10_no_panic (input : List Nat) (h4 : 4 ≤ input.length) :
    chunkTryFrom input ≠ ParseOutcome.panicked := by
  rcases input with _ | ⟨l0, _ | ⟨l1, _ | ⟨l2, _ | ⟨l3, rest⟩⟩⟩⟩
  · simp at h4
  · simp at h4
  · simp at h4
  · simp at h4
  · simp only [chunkTryFrom.eq_def]
    split
    · exact fun hcontra => ParseOutcome.noConfusion hcontra
    · next hcond =>
      split
      · next t0 t1 t2 t3 rest2 =>
        split
        · exact fun hcontra => ParseOutcome.noConfusion hcontra
        · next ct htf =>
          split
          · exact fun hcontra => ParseOutcome.noConfusion hcontra
          · split
            · next c0 c1 c2 c3 tail hdrop =>
              split
              · exact fun hcontra => ParseOutcome.noConfusion hcontra
              · exact fun hcontra => ParseOutcome.noConfusion hcontra
            · next hnone =>
              exfalso
              have hdl : 4 ≤ (rest2.drop (u32FromBe l0 l1 l2 l3)).length := by
                simp only [List.length_drop]
                simp only [List.length_cons] at hcond
                omega
              obtain ⟨a, b, c, d, tl, habcd⟩ :=
                exists_cons4 (rest2.drop (u32FromBe l0 l1 l2 l3)) hdl
              exact hnone a b c d tl habcd
      · next hnone =>
        exfalso
        have hrl : 4 ≤ rest.length := by omega
        obtain ⟨a, b, c, d, tl, habcd⟩ := exists_cons4 rest hrl
        exact hnone a b c d tl habcd

/-- C10 witness: the amended statement applied at the 4-byte input of
zeroes, which parses to the input-too-small error rather than aborting. -/
theorem c10_witness : chunkTryFrom [0, 0, 0, 0] ≠ ParseOutcome.panicked :=
  c10_no_panic [0, 0, 0, 0] (by decide)

/-- C10 counterexample: on the 3-byte input the initial 4-byte split aborts,
so parsing does not return a chunk or an error value. -/
theorem c10_counterexample : chunkTryFrom [0, 0, 0] = ParseOutcome.panicked := by
  decide

end Pngme
